import Mathlib

/-
Verification development for the skool autonext driver
(src/Week1/playwright/skool_autonext/skool_resume_and_autoplay.py).

The embedding translates the sidebar navigation logic, the resume and
next-lesson selection, the section expander, the lesson-list stabilizer
and the video watchdog into pure Lean functions.  DOM reads are modelled
by explicit snapshots; page mutation over time is modelled by traces
(functions from a poll-cycle or round index to a snapshot).
-/

/- ===================================================================
   Lesson sidebar model
   =================================================================== -/

/-- One sidebar anchor as read by lesson_links / is_completed:
the href attribute (get_attribute may return null, hence Option) and
whether a ModuleCompletedIcon child is present. -/
structure LessonAnchor where
  href : Option String
  completed : Bool
deriving DecidableEq, Repr

/-- Test that the second character list starts with the first
(a == b at each position). -/
def charsStartWith : List Char → List Char → Bool
  | [], _ => true
  | _ :: _, [] => false
  | a :: as, b :: bs => a == b && charsStartWith as bs

/-- Character-list containment: some suffix of the second list starts
with the first list.  Models the Python substring test "pat in s". -/
def listContains (pat : List Char) : List Char → Bool
  | [] => charsStartWith pat []
  | c :: rest => charsStartWith pat (c :: rest) || listContains pat rest

/-- String containment, mirroring the Python expression
"f\x22md=\x7bcurrent_md\x7d\x22 in href". -/
def strContains (s pat : String) : Bool :=
  listContains pat.toList s.toList

/-- Anchor href contains the query fragment md=token
(href or \x22\x22 when the attribute is null, as in the source). -/
def hrefContainsMd (a : LessonAnchor) (md : String) : Bool :=
  strContains (a.href.getD "") ("md=" ++ md)

/-- First index in the list satisfying the test, mirroring the Python
pattern: for i in range(count): if pred(links.nth(i)): ... break. -/
def firstIdxWhere (p : LessonAnchor → Bool) : List LessonAnchor → Option Nat
  | [] => none
  | a :: as => if p a then some 0 else (firstIdxWhere p as).map (fun i => i + 1)

/-- Result of a navigation routine: the Python boolean return value and
the list of sidebar entry indices that were activated by
click_anchor_safe (in order). -/
structure ActionResult where
  returned : Bool
  activated : List Nat
deriving DecidableEq, Repr

/-- Result of resume_from_first_uncompleted: the boolean return value,
the activated entries, and the diagnostic line printed on the terminal
branch taken. -/
structure ResumeResult where
  returned : Bool
  activated : List Nat
  diagnostic : String
deriving DecidableEq, Repr

/-- Embedding of resume_from_first_uncompleted, applied to the already
stabilized list of sidebar anchors (the expand and load passes that the
source performs first only mutate the page; their outcome is the links
argument).  Scans for the first anchor without a completion icon,
activates it and returns True; returns False with distinct diagnostics
for the empty index and for the all-completed index. -/
def resume_from_first_uncompleted (links : List LessonAnchor) : ResumeResult :=
  if links.length = 0 then
    ⟨false, [], "❌ No lessons found."⟩
  else
    match firstIdxWhere (fun a => !a.completed) links with
    | some i => ⟨true, [i], "➡️ Resuming from lesson"⟩
    | none => ⟨false, [], "🏁 All lessons completed already."⟩

/-- The current_index computation inside click_next_lesson: when the
current URL has a truthy md token, the first anchor whose href contains
md=token; Python treats None and the empty string as falsy. -/
def currentIndexOf (links : List LessonAnchor) (current_md : Option String) : Option Nat :=
  match current_md with
  | none => none
  | some md =>
    if md = "" then none
    else firstIdxWhere (fun a => hrefContainsMd a md) links

/-- Embedding of click_next_lesson over the loaded sidebar list and the
md token extracted from the current URL by get_md_from_url.
Mirrors the source: empty list returns False; token not located falls
back to the first uncompleted entry; a located token at the last
position returns False without activation; otherwise the successor
entry is activated and True is returned. -/
def click_next_lesson (links : List LessonAnchor) (current_md : Option String) : ActionResult :=
  let count := links.length
  if count = 0 then ⟨false, []⟩
  else
    match currentIndexOf links current_md with
    | none =>
      match firstIdxWhere (fun a => !a.completed) links with
      | some i => ⟨true, [i]⟩
      | none => ⟨false, []⟩
    | some i =>
      if count ≤ i + 1 then ⟨false, []⟩
      else ⟨true, [i + 1]⟩

/- ===================================================================
   Video player model
   =================================================================== -/

/-- One HTML media element as observed by the evaluate scripts:
duration (none models NaN or a missing value, both falsy in JS),
currentTime, and the ended and paused flags.  Times are integers in
HALF time-units, so that the half-unit end window of the source is
exactly representable: the source constant 5 becomes 10 here and the
source constant 0.5 becomes 1. -/
structure Player where
  duration : Option Int
  currentTime : Int
  ended : Bool
  paused : Bool
deriving DecidableEq, Repr

/-- Point-in-time snapshot of the page as far as the video routines
query it: the video, mux-video and mux-player elements. -/
structure PageSnapshot where
  video : Option Player
  muxVideo : Option Player
  muxPlayer : Option Player
deriving DecidableEq, Repr

/-- Embedding of detect_any_video_player: true when a video, mux-video
or mux-player element exists. -/
def detect_any_video_player (s : PageSnapshot) : Bool :=
  s.video.isSome || s.muxVideo.isSome || s.muxPlayer.isSome

/-- The JS guard p.duration && p.duration > 5: false when the duration
is NaN or missing (none) or zero, true exactly when a sane duration
above 5 time-units (10 half-units) is known. -/
def durGuard : Option Int → Bool
  | none => false
  | some d => decide (d ≠ 0) && decide (10 < d)

/-- Numeric value of a duration once the guard has passed. -/
def durVal (d : Option Int) : Int := d.getD 0

/-- The end condition of one player in the keep_video_alive_until_end
ended script: p.ended === true or currentTime at least duration - 0.5
(one half-unit). -/
def playerEnded (p : Player) : Bool :=
  p.ended || decide (durVal p.duration - 1 ≤ p.currentTime)

/-- mux-video part of the ended script: checked only when the video
element branch did not return. -/
def endedEvalMux (s : PageSnapshot) : Bool :=
  match s.muxVideo with
  | some mv => if durGuard mv.duration then playerEnded mv else false
  | none => false

/-- Full ended script of keep_video_alive_until_end: the video element
is consulted first, and only under the duration guard; otherwise the
mux-video element; mux-player is never consulted. -/
def endedEval (s : PageSnapshot) : Bool :=
  match s.video with
  | some v => if durGuard v.duration then playerEnded v else endedEvalMux s
  | none => endedEvalMux s

/-- mux-video part of the paused script. -/
def pausedEvalMux (s : PageSnapshot) : Bool :=
  match s.muxVideo with
  | some mv => if durGuard mv.duration then mv.paused else false
  | none => false

/-- Full paused script of keep_video_alive_until_end: paused is only
reported under the same duration guard as the ended script. -/
def pausedEval (s : PageSnapshot) : Bool :=
  match s.video with
  | some v => if durGuard v.duration then v.paused else pausedEvalMux s
  | none => pausedEvalMux s

/-- Readiness script of wait_video_ready: p is the video element if
present, else mux-video; when p exists the script returns true on every
branch (sane duration, moving currentTime, or mere existence), so it
reduces to the existence of one of those two elements.  mux-player is
not inspected. -/
def videoReadyPred (s : PageSnapshot) : Bool :=
  match s.video.orElse (fun _ => s.muxVideo) with
  | none => false
  | some p =>
    if durGuard p.duration then true
    else if decide (p.currentTime ≠ 0) && decide (1 < p.currentTime) then true
    else true

/-- Embedding of wait_video_ready: wait_for_function polls the
readiness script; the wait succeeds when the script holds at some poll
before the timeout, modelled as a bounded number of polls over a
readiness trace. -/
def wait_video_ready (snaps : Nat → PageSnapshot) (polls : Nat) : Bool :=
  (List.range polls).any fun t => videoReadyPred (snaps t)

/-- One poll cycle observation of the watchdog loop: the Date.now()
reading at the top of the cycle and the page snapshot the two evaluate
scripts of that cycle see. -/
structure PollObs where
  now : Nat
  page : PageSnapshot
deriving DecidableEq, Repr

/-- What one watchdog poll cycle does: exit with timeout, exit with
ended, or continue (recording whether force_start_video was issued
because the paused script returned true). -/
inductive PollStep where
  | timeout
  | endedR
  | cont (resumed : Bool)
deriving DecidableEq, Repr

/-- The overall-timeout test at the top of the loop:
now - start_time > timeout_ms. -/
def timeoutHit (obs : PollObs) (start timeoutMs : Nat) : Bool :=
  decide (timeoutMs < obs.now - start)

/-- One cycle of keep_video_alive_until_end, checks in source order:
overall timeout, then the ended script, then the paused script. -/
def pollStep (obs : PollObs) (start timeoutMs : Nat) : PollStep :=
  if timeoutHit obs start timeoutMs then PollStep.timeout
  else if endedEval obs.page then PollStep.endedR
  else PollStep.cont (pausedEval obs.page)

/-- Embedding of the while-True loop of keep_video_alive_until_end over
a trace of per-cycle observations.  Arguments after the timeout
configuration: remaining fuel (the loop itself is unbounded; none means
the fuel ran out with the loop still going), the cycle index, and the
count of force-start resume actions issued so far.  A terminal result
carries the returned string, the cycle at which the loop exited and the
resume count. -/
def keep_video_alive_until_end (tr : Nat → PollObs) (start timeoutMs : Nat) :
    Nat → Nat → Nat → Option (String × Nat × Nat)
  | 0, _, _ => none
  | fuel + 1, k, resumes =>
    match pollStep (tr k) start timeoutMs with
    | PollStep.timeout => some ("timeout", k, resumes)
    | PollStep.endedR => some ("ended", k, resumes)
    | PollStep.cont r =>
      keep_video_alive_until_end tr start timeoutMs fuel (k + 1)
        (if r then resumes + 1 else resumes)

/-- Environment of one wait_for_video_end_or_skip run: the page at the
first detection check, the page at the re-check when the thumbnail
recovery branch ran (the recovery click may have mutated the page), the
readiness trace and poll bound for wait_video_ready, and the watchdog
poll trace with its clock configuration. -/
structure VideoEnv where
  snap0 : PageSnapshot
  snap1 : PageSnapshot
  readySnaps : Nat → PageSnapshot
  readyPolls : Nat
  pollTrace : Nat → PollObs
  startTime : Nat
  timeoutMs : Nat

/-- Embedding of wait_for_video_end_or_skip.  Returns the outcome
string (none only when the watchdog fuel ran out) together with two
flags recording whether the readiness wait and the polling loop were
entered.  When the first detection succeeds no recovery click happens
and the re-check reads the unchanged page (snap0); otherwise the
re-check reads snap1. -/
def wait_for_video_end_or_skip (env : VideoEnv) (watchFuel : Nat) :
    Option String × Bool × Bool :=
  let recheck := if detect_any_video_player env.snap0 then env.snap0 else env.snap1
  if detect_any_video_player recheck = false then (some "no-video", false, false)
  else if wait_video_ready env.readySnaps env.readyPolls = false then
    (some "duration-fail", true, false)
  else
    match keep_video_alive_until_end env.pollTrace env.startTime env.timeoutMs watchFuel 0 0 with
    | none => (none, true, true)
    | some (s, _, _) => (some s, true, true)

/- ===================================================================
   Lesson list stabilizer
   =================================================================== -/

/-- Exit information of one load_all_lessons_until_stable run:
the number of loop rounds executed, the stable streak at exit, and
whether the loop exited through the debounce break (stable >= 10)
rather than by exhausting max_rounds. -/
structure StabRun where
  exitRound : Nat
  streak : Nat
  broke : Bool
deriving DecidableEq, Repr

/-- The for-loop of load_all_lessons_until_stable over a trace of
per-round link counts: stable is incremented when the count equals the
previous round count and reset to zero otherwise; the loop breaks when
stable reaches 10, and otherwise records the count and scrolls on.
last_count is an Int because it starts at -1. -/
def stabLoop (counts : Nat → Nat) : Nat → Nat → Int → Nat → StabRun
  | 0, r, _, stable => ⟨r, stable, false⟩
  | fuel + 1, r, last, stable =>
    let stable' := if (counts r : Int) = last then stable + 1 else 0
    if 10 ≤ stable' then ⟨r + 1, stable', true⟩
    else stabLoop counts fuel (r + 1) (counts r : Int) stable'

/-- Embedding of load_all_lessons_until_stable: the loop starts at
round 0 with last_count = -1 and stable = 0 and runs at most max_rounds
rounds. -/
def load_all_lessons_until_stable (counts : Nat → Nat) (max_rounds : Nat) : StabRun :=
  stabLoop counts max_rounds 0 (-1) 0

/-- The property claimed of every stabilizer run: the final link count
was observed equal on at least 10 consecutive scroll rounds immediately
before returning, phrased over the count trace and the exit round. -/
def stableBeforeExit (counts : Nat → Nat) (er : Nat) : Prop :=
  10 ≤ er ∧ ∀ k, k < er → er - 10 ≤ k → counts k = counts (er - 1)

/- ===================================================================
   Section expander
   =================================================================== -/

/-- Observable scroll and click activity of expand_all_sections_safe,
in order: the initial sidebar scroll-into-view, scrolls to the top of
the page, the per-round arrow-click pass (carrying the number of icons
the round found), and downward scrolls by a pixel amount. -/
inductive ScrollEvent where
  | sidebarIntoView
  | toTop
  | down (px : Nat)
  | clickRound (n : Nat)
deriving DecidableEq, Repr

/-- The round loop of expand_all_sections_safe over a trace of
per-round icon counts: a round that finds zero icons returns early
(flag true) with no trailing scroll; otherwise the round clicks every
icon, scrolls down by 1400 and continues; after the last round the view
is scrolled back to the top. -/
def expandRounds (ic : Nat → Nat) : Nat → Nat → List ScrollEvent × Bool
  | 0, _ => ([ScrollEvent.toTop], false)
  | fuel + 1, r =>
    if ic r = 0 then ([], true)
    else
      let rest := expandRounds ic fuel (r + 1)
      (ScrollEvent.clickRound (ic r) :: ScrollEvent.down 1400 :: rest.1, rest.2)

/-- Embedding of expand_all_sections_safe: scrolls the sidebar into
view and to the top, then runs the bounded round loop.  The Bool is
true when a round with zero icons stopped the expander early. -/
def expand_all_sections_safe (ic : Nat → Nat) (rounds : Nat) : List ScrollEvent × Bool :=
  let body := expandRounds ic rounds 0
  (ScrollEvent.sidebarIntoView :: ScrollEvent.toTop :: body.1, body.2)

/-- Scanner for the event segment after a click round, tracking whether
a downward scroll and a scroll-to-top have been seen since the previous
click round; requires, at each subsequent click round, a downward
scroll and no scroll-to-top in between. -/
def gapDownNoTop : Bool → Bool → List ScrollEvent → Bool
  | _, _, [] => true
  | sawDown, sawTop, ScrollEvent.clickRound _ :: rest =>
    sawDown && !sawTop && gapDownNoTop false false rest
  | _, sawTop, ScrollEvent.down _ :: rest => gapDownNoTop true sawTop rest
  | sawDown, _, ScrollEvent.toTop :: rest => gapDownNoTop sawDown true rest
  | sawDown, sawTop, ScrollEvent.sidebarIntoView :: rest => gapDownNoTop sawDown sawTop rest

/-- Between any two consecutive click rounds there is a downward scroll
and no scroll back to the top. -/
def downNoTopBetweenRounds : List ScrollEvent → Bool
  | [] => true
  | ScrollEvent.clickRound _ :: rest => gapDownNoTop false false rest
  | _ :: rest => downNoTopBetweenRounds rest

/-- Scanner for the claimed discipline: at each subsequent click round,
a downward scroll AND a scroll back to the top must both have occurred
since the previous click round. -/
def gapDownThenTop : Bool → Bool → List ScrollEvent → Bool
  | _, _, [] => true
  | sawDown, sawTop, ScrollEvent.clickRound _ :: rest =>
    sawDown && sawTop && gapDownThenTop false false rest
  | _, sawTop, ScrollEvent.down _ :: rest => gapDownThenTop true sawTop rest
  | sawDown, _, ScrollEvent.toTop :: rest => gapDownThenTop sawDown true rest
  | sawDown, sawTop, ScrollEvent.sidebarIntoView :: rest => gapDownThenTop sawDown sawTop rest

/-- The claimed property: between any two consecutive click rounds the
view was scrolled toward the end of the list and then back to the top. -/
def downThenTopBetweenRounds : List ScrollEvent → Bool
  | [] => true
  | ScrollEvent.clickRound _ :: rest => gapDownThenTop false false rest
  | _ :: rest => downThenTopBetweenRounds rest

/-- Is the event a downward scroll. -/
def isDownEvent : ScrollEvent → Bool
  | ScrollEvent.down _ => true
  | _ => false

/-- Is the event a click round. -/
def isClickEvent : ScrollEvent → Bool
  | ScrollEvent.clickRound _ => true
  | _ => false

/- ===================================================================
   Claims about the Next-Lesson Navigator and the Resume Selector
   =================================================================== -/

/-- C3: for every lesson index in which the md token of the current
page location matches the href of entry i (first match, as the source
breaks at the first hit) with i < N - 1, click_next_lesson activates
entry i + 1 exactly once, activates no other entry, and returns the
advanced outcome True. -/
theorem next_lesson_advances (links : List LessonAnchor) (md : String) (i : Nat)
    (hmd : md ≠ "")
    (hfind : firstIdxWhere (fun a => hrefContainsMd a md) links = some i)
    (hlt : i + 1 < links.length) :
    click_next_lesson links (some md) = ⟨true, [i + 1]⟩ := by
  have h0 : ¬ links.length = 0 := by omega
  simp only [click_next_lesson, currentIndexOf, if_neg h0, if_neg hmd, hfind]
  simp only [if_neg (by omega : ¬ links.length ≤ i + 1)]

/-- Witness for next_lesson_advances at a concrete three-entry index
whose current location md token aaa matches entry 0. -/
theorem next_lesson_advances_witness :
    click_next_lesson
      [⟨some "/classroom/x?md=aaa", true⟩,
       ⟨some "/classroom/x?md=bbb", false⟩,
       ⟨some "/classroom/x?md=ccc", false⟩] (some "aaa") = ⟨true, [1]⟩ :=
  next_lesson_advances _ "aaa" 0 (by decide) (by decide) (by decide)

/-- C4: for every lesson index of at least one entry in which the md
token of the current page location matches the last entry, the
navigator returns the end-of-loaded-list outcome False and activates no
entry at all. -/
theorem next_lesson_end_of_list (links : List LessonAnchor) (md : String) (i : Nat)
    (hmd : md ≠ "")
    (hfind : firstIdxWhere (fun a => hrefContainsMd a md) links = some i)
    (hlast : i + 1 = links.length) :
    click_next_lesson links (some md) = ⟨false, []⟩ := by
  have h0 : ¬ links.length = 0 := by omega
  simp only [click_next_lesson, currentIndexOf, if_neg h0, if_neg hmd, hfind]
  simp only [if_pos (by omega : links.length ≤ i + 1)]

/-- Witness for next_lesson_end_of_list at a concrete two-entry index
whose current location md token matches the last entry. -/
theorem next_lesson_end_of_list_witness :
    click_next_lesson
      [⟨some "/classroom/x?md=aaa", true⟩,
       ⟨some "/classroom/x?md=bbb", false⟩] (some "bbb") = ⟨false, []⟩ :=
  next_lesson_end_of_list _ "bbb" 1 (by decide) (by decide) (by decide)

/-- C5: for every non-empty lesson index in which the current location
token is absent from every href (or there is no truthy token at all),
click_next_lesson returns what the Resume Selector algorithm returns
and activates exactly the entry that algorithm selects, namely the
first entry with completed = false. -/
theorem next_lesson_fallback_matches_resume (links : List LessonAnchor)
    (current_md : Option String) (h : links ≠ [])
    (hidx : currentIndexOf links current_md = none) :
    (click_next_lesson links current_md).returned
        = (resume_from_first_uncompleted links).returned ∧
      (click_next_lesson links current_md).activated
        = (resume_from_first_uncompleted links).activated := by
  have h0 : ¬ links.length = 0 := by
    simp only [List.length_eq_zero]
    exact h
  simp only [click_next_lesson, resume_from_first_uncompleted, if_neg h0, hidx]
  cases firstIdxWhere (fun a => !a.completed) links <;> simp

/-- Witness for next_lesson_fallback_matches_resume at a concrete index
whose hrefs do not contain the current token zzz. -/
theorem next_lesson_fallback_matches_resume_witness :
    (click_next_lesson
        [⟨some "/classroom/x?md=aaa", true⟩,
         ⟨some "/classroom/x?md=bbb", false⟩] (some "zzz")).returned
      = (resume_from_first_uncompleted
        [⟨some "/classroom/x?md=aaa", true⟩,
         ⟨some "/classroom/x?md=bbb", false⟩]).returned ∧
    (click_next_lesson
        [⟨some "/classroom/x?md=aaa", true⟩,
         ⟨some "/classroom/x?md=bbb", false⟩] (some "zzz")).activated
      = (resume_from_first_uncompleted
        [⟨some "/classroom/x?md=aaa", true⟩,
         ⟨some "/classroom/x?md=bbb", false⟩]).activated :=
  next_lesson_fallback_matches_resume _ (some "zzz") (by decide) (by decide)

/-- Every anchor of an all-completed index fails the uncompleted test,
so the resume scan finds nothing. -/
theorem firstIdxWhere_uncompleted_none (links : List LessonAnchor)
    (hall : ∀ a ∈ links, a.completed = true) :
    firstIdxWhere (fun a => !a.completed) links = none := by
  induction links with
  | nil => rfl
  | cons a as ih =>
    have ha : a.completed = true := hall a (by simp)
    simp only [firstIdxWhere, ha, Bool.not_true, Bool.false_eq_true, if_false]
    rw [ih (fun b hb => hall b (by simp [hb]))]
    rfl

/-- C8: on the empty index the Resume Selector returns False with the
no-lessons diagnostic, on a non-empty index whose entries are all
completed it returns False with the all-completed diagnostic, and the
two outcomes are distinct. -/
theorem resume_outcomes_distinct (links : List LessonAnchor) (h : links ≠ [])
    (hall : ∀ a ∈ links, a.completed = true) :
    resume_from_first_uncompleted [] = ⟨false, [], "❌ No lessons found."⟩ ∧
      resume_from_first_uncompleted links
        = ⟨false, [], "🏁 All lessons completed already."⟩ ∧
      resume_from_first_uncompleted [] ≠ resume_from_first_uncompleted links := by
  have h0 : ¬ links.length = 0 := by
    simp only [List.length_eq_zero]
    exact h
  have hfind := firstIdxWhere_uncompleted_none links hall
  refine ⟨rfl, ?_, ?_⟩
  · simp only [resume_from_first_uncompleted, if_neg h0, hfind]
  · simp only [resume_from_first_uncompleted, if_neg h0, hfind]
    decide

/-- Witness for resume_outcomes_distinct at a concrete one-entry
all-completed index. -/
theorem resume_outcomes_distinct_witness :
    resume_from_first_uncompleted [] = ⟨false, [], "❌ No lessons found."⟩ ∧
      resume_from_first_uncompleted [⟨some "/classroom/x?md=aaa", true⟩]
        = ⟨false, [], "🏁 All lessons completed already."⟩ ∧
      resume_from_first_uncompleted []
        ≠ resume_from_first_uncompleted [⟨some "/classroom/x?md=aaa", true⟩] :=
  resume_outcomes_distinct _ (by decide) (by decide)

/- ===================================================================
   Watchdog loop lemmas
   =================================================================== -/

/-- A cycle whose timeout test and ended script are both false
continues, issuing a resume exactly when the paused script holds. -/
theorem pollStep_cont (obs : PollObs) (start tm : Nat)
    (hnt : timeoutHit obs start tm = false) (hne : endedEval obs.page = false) :
    pollStep obs start tm = PollStep.cont (pausedEval obs.page) := by
  simp [pollStep, hnt, hne]

/-- Unfolding one non-terminal cycle of the watchdog loop. -/
theorem keepAlive_step (tr : Nat → PollObs) (start tm fuel k r : Nat)
    (hnt : timeoutHit (tr k) start tm = false) (hne : endedEval (tr k).page = false) :
    keep_video_alive_until_end tr start tm (fuel + 1) k r =
      keep_video_alive_until_end tr start tm fuel (k + 1)
        (if pausedEval (tr k).page then r + 1 else r) := by
  rw [keep_video_alive_until_end, pollStep_cont _ _ _ hnt hne]

/-- Running the loop across d consecutive non-terminal cycles reaches
cycle k + d with some accumulated resume count. -/
theorem keepAlive_reach (tr : Nat → PollObs) (start tm : Nat) :
    ∀ (d fuel k r : Nat),
      (∀ j, k ≤ j → j < k + d →
        timeoutHit (tr j) start tm = false ∧ endedEval (tr j).page = false) →
      ∃ r2, keep_video_alive_until_end tr start tm (d + fuel) k r =
        keep_video_alive_until_end tr start tm fuel (k + d) r2 := by
  intro d
  induction d with
  | zero =>
    intro fuel k r _
    exact ⟨r, by rw [Nat.zero_add, Nat.add_zero]⟩
  | succ d ih =>
    intro fuel k r hb
    have hk := hb k (Nat.le_refl k) (by omega)
    have hstep := keepAlive_step tr start tm (d + fuel) k r hk.1 hk.2
    have h1 : d + 1 + fuel = d + fuel + 1 := by omega
    rw [h1, hstep]
    obtain ⟨r2, h2⟩ := ih fuel (k + 1) (if pausedEval (tr k).page then r + 1 else r)
      (fun j hj1 hj2 => hb j (by omega) (by omega))
    have h3 : k + 1 + d = k + (d + 1) := by omega
    rw [h3] at h2
    exact ⟨r2, h2⟩

/-- A video element with a sane duration that satisfies the end
condition makes the ended script true. -/
theorem endedEval_of_video (s : PageSnapshot) (v : Player)
    (hv : s.video = some v) (hd : durGuard v.duration = true)
    (hend : playerEnded v = true) :
    endedEval s = true := by
  unfold endedEval
  rw [hv]
  simp [hd, hend]

/-- A paused video element with a sane duration makes the paused
script true. -/
theorem pausedEval_of_video (s : PageSnapshot) (v : Player)
    (hv : s.video = some v) (hd : durGuard v.duration = true)
    (hp : v.paused = true) :
    pausedEval s = true := by
  unfold pausedEval
  rw [hv]
  simp [hd, hp]

/- ===================================================================
   Claims about the Video Watchdog polling loop
   =================================================================== -/

/-- C1 (amended): for every watchdog run whose earlier cycles were all
non-terminal, if at cycle k the overall timeout has not elapsed and the
video element reports the end condition (ended = true, or current
position within half a time-unit of duration) WITH a known duration
exceeding the 5-unit sanity threshold, the loop terminates with outcome
ended exactly at cycle k, not before and not later. -/
theorem watchdog_ended_terminates_next_cycle (tr : Nat → PollObs)
    (start tm fuel k r0 : Nat) (v : Player)
    (hfuel : k < fuel)
    (hbefore : ∀ j, j < k →
      timeoutHit (tr j) start tm = false ∧ endedEval (tr j).page = false)
    (hnt : timeoutHit (tr k) start tm = false)
    (hv : (tr k).page.video = some v)
    (hd : durGuard v.duration = true)
    (hend : playerEnded v = true) :
    ∃ r, keep_video_alive_until_end tr start tm fuel 0 r0 = some ("ended", k, r) := by
  have hended : endedEval (tr k).page = true := endedEval_of_video _ v hv hd hend
  obtain ⟨r2, hr⟩ := keepAlive_reach tr start tm k (fuel - k) 0 r0
    (fun j hj1 hj2 => hbefore j (by omega))
  have h1 : k + (fuel - k) = fuel := by omega
  rw [h1, Nat.zero_add] at hr
  have h2 : fuel - k = (fuel - k - 1) + 1 := by omega
  rw [h2] at hr
  have hstep : pollStep (tr k) start tm = PollStep.endedR := by
    simp [pollStep, hnt, hended]
  rw [keep_video_alive_until_end, hstep] at hr
  exact ⟨r2, hr⟩

/-- Player reporting ended with a sane duration (10 time-units), for
the witness trace. -/
def endedSanePlayer : Player := ⟨some 20, 4, true, false⟩

/-- Player not yet ended, for cycle 0 of the witness trace. -/
def playingSanePlayer : Player := ⟨some 20, 2, false, false⟩

/-- Witness trace: cycle 0 still playing, every later cycle reports
ended; the clock advances 3000 ms per cycle. -/
def trEndedSane : Nat → PollObs := fun j =>
  if j = 0 then ⟨0, ⟨some playingSanePlayer, none, none⟩⟩
  else ⟨3000 * j, ⟨some endedSanePlayer, none, none⟩⟩

/-- Witness for watchdog_ended_terminates_next_cycle: on the concrete
trace the loop returns ended exactly at cycle 1. -/
theorem watchdog_ended_terminates_next_cycle_witness :
    ∃ r, keep_video_alive_until_end trEndedSane 0 100000 5 0 0 = some ("ended", 1, r) :=
  watchdog_ended_terminates_next_cycle trEndedSane 0 100000 5 1 0 endedSanePlayer
    (by decide) (by decide) (by decide) (by decide) (by decide) (by decide)

/-- Player reporting ended = true while its duration is unknown. -/
def endedNoDurPlayer : Player := ⟨none, 0, true, false⟩

/-- Trace in which the sole video element reports ended = true at every
cycle but never exposes a duration; the clock advances 3000 ms per
cycle. -/
def trEndedNoDur : Nat → PollObs := fun j =>
  ⟨3000 * j, ⟨some endedNoDurPlayer, none, none⟩⟩

/-- C1 counterexample: the player reports ended = true from cycle 0 on
and the overall timeout has not elapsed at cycle 0, yet the loop does
not terminate with ended on that poll cycle (nor ever): because the
duration is unknown the ended script stays false and the run ends in
timeout at cycle 2 with outcome timeout. -/
theorem watchdog_ended_unknown_duration_counterexample :
    (trEndedNoDur 0).page.video = some endedNoDurPlayer ∧
      endedNoDurPlayer.ended = true ∧
      timeoutHit (trEndedNoDur 0) 0 5000 = false ∧
      keep_video_alive_until_end trEndedNoDur 0 5000 10 0 0 = some ("timeout", 2, 0) := by
  decide

/-- C6 (amended): at a cycle the loop reaches where the overall timeout
has not elapsed and the ended script is false, a paused video element
whose duration is known AND exceeds the 5-unit sanity threshold makes
the cycle issue the force-start resume action and continue polling:
the cycle is non-terminal and the loop proceeds to the next cycle with
the resume count incremented. -/
theorem watchdog_paused_resumes_and_continues (tr : Nat → PollObs)
    (start tm fuel k resumes : Nat) (v : Player)
    (hv : (tr k).page.video = some v)
    (hd : durGuard v.duration = true)
    (hp : v.paused = true)
    (hnt : timeoutHit (tr k) start tm = false)
    (hne : endedEval (tr k).page = false) :
    pollStep (tr k) start tm = PollStep.cont true ∧
      keep_video_alive_until_end tr start tm (fuel + 1) k resumes =
        keep_video_alive_until_end tr start tm fuel (k + 1) (resumes + 1) := by
  have hpe : pausedEval (tr k).page = true := pausedEval_of_video _ v hv hd hp
  constructor
  · rw [pollStep_cont _ _ _ hnt hne, hpe]
  · rw [keepAlive_step tr start tm fuel k resumes hnt hne, hpe]
    simp

/-- Paused player with a sane duration, for the witness trace. -/
def pausedSanePlayer : Player := ⟨some 20, 4, false, true⟩

/-- Witness trace: the video element is paused at every cycle and the
clock never advances. -/
def trPausedSane : Nat → PollObs := fun _ =>
  ⟨0, ⟨some pausedSanePlayer, none, none⟩⟩

/-- Witness for watchdog_paused_resumes_and_continues at cycle 0 of the
concrete paused trace. -/
theorem watchdog_paused_resumes_and_continues_witness :
    pollStep (trPausedSane 0) 0 100000 = PollStep.cont true ∧
      keep_video_alive_until_end trPausedSane 0 100000 (3 + 1) 0 5 =
        keep_video_alive_until_end trPausedSane 0 100000 3 (0 + 1) (5 + 1) :=
  watchdog_paused_resumes_and_continues trPausedSane 0 100000 3 0 5 pausedSanePlayer
    (by decide) (by decide) (by decide) (by decide) (by decide)

/-- Paused player whose duration is known but at most 5 time units
(here 4 units, i.e. 8 half-units). -/
def pausedShortDurPlayer : Player := ⟨some 8, 2, false, true⟩

/-- Trace in which the sole video element is paused with known duration
4 time-units at every cycle; the clock advances 60000 ms per cycle. -/
def trPausedShort : Nat → PollObs := fun j =>
  ⟨60000 * j, ⟨some pausedShortDurPlayer, none, none⟩⟩

/-- C6 counterexample: the player is paused with a known duration
(4 time units) and the overall timeout has not elapsed at cycle 0, yet
the cycle issues no force-start resume action (the paused script is
false under the 5-unit duration guard): the whole run ends in timeout
with zero resumes issued. -/
theorem watchdog_paused_short_duration_counterexample :
    (trPausedShort 0).page.video = some pausedShortDurPlayer ∧
      pausedShortDurPlayer.paused = true ∧
      pausedShortDurPlayer.duration = some 8 ∧
      timeoutHit (trPausedShort 0) 0 100000 = false ∧
      pollStep (trPausedShort 0) 0 100000 = PollStep.cont false ∧
      keep_video_alive_until_end trPausedShort 0 100000 10 0 0 = some ("timeout", 2, 0) := by
  decide

/- ===================================================================
   Claims about wait_for_video_end_or_skip
   =================================================================== -/

/-- C7: when no player element is detected, and none is detected on
the single re-check after the one thumbnail-click recovery attempt,
wait_for_video_end_or_skip returns the no-video outcome without ever
entering the readiness wait or the polling loop. -/
theorem no_video_without_polling (env : VideoEnv) (watchFuel : Nat)
    (h0 : detect_any_video_player env.snap0 = false)
    (h1 : detect_any_video_player env.snap1 = false) :
    wait_for_video_end_or_skip env watchFuel = (some "no-video", false, false) := by
  simp [wait_for_video_end_or_skip, h0, h1]

/-- Page with no video, mux-video or mux-player element. -/
def emptyPage : PageSnapshot := ⟨none, none, none⟩

/-- Environment in which the page never shows any player element. -/
def envNoVideo : VideoEnv :=
  ⟨emptyPage, emptyPage, fun _ => emptyPage, 3, fun _ => ⟨0, emptyPage⟩, 0, 1000⟩

/-- Witness for no_video_without_polling on the player-free
environment. -/
theorem no_video_without_polling_witness :
    wait_for_video_end_or_skip envNoVideo 5 = (some "no-video", false, false) :=
  no_video_without_polling envNoVideo 5 (by decide) (by decide)

/-- C10: on a page whose only player element is a mux-player (no video
and no mux-video element), detection succeeds, but the readiness script
of wait_video_ready, which inspects only video and mux-video, is false
on that page, so when the page stays in that shape through the
readiness polls the run returns the duration-fail outcome after the
readiness timeout, without entering the polling loop. -/
theorem mux_player_only_duration_fail (env : VideoEnv) (watchFuel : Nat) (p : Player)
    (h0 : env.snap0 = ⟨none, none, some p⟩)
    (hr : ∀ t, env.readySnaps t = ⟨none, none, some p⟩) :
    detect_any_video_player env.snap0 = true ∧
      videoReadyPred (⟨none, none, some p⟩ : PageSnapshot) = false ∧
      wait_for_video_end_or_skip env watchFuel = (some "duration-fail", true, false) := by
  have hdet : detect_any_video_player env.snap0 = true := by
    rw [h0]; rfl
  have hpred : videoReadyPred (⟨none, none, some p⟩ : PageSnapshot) = false := rfl
  refine ⟨hdet, hpred, ?_⟩
  have hwr : wait_video_ready env.readySnaps env.readyPolls = false := by
    simp only [wait_video_ready, List.any_eq_false]
    intro t _
    rw [hr t, hpred]
    simp
  simp [wait_for_video_end_or_skip, hdet, hwr]

/-- A mux-player element for the witness environment. -/
def muxOnlyPlayer : Player := ⟨some 100, 0, false, false⟩

/-- Environment whose page always contains exactly a mux-player. -/
def envMuxOnly : VideoEnv :=
  ⟨⟨none, none, some muxOnlyPlayer⟩, emptyPage, fun _ => ⟨none, none, some muxOnlyPlayer⟩,
    5, fun _ => ⟨0, ⟨none, none, some muxOnlyPlayer⟩⟩, 0, 1000⟩

/-- Witness for mux_player_only_duration_fail on the mux-player-only
environment. -/
theorem mux_player_only_duration_fail_witness :
    detect_any_video_player envMuxOnly.snap0 = true ∧
      videoReadyPred (⟨none, none, some muxOnlyPlayer⟩ : PageSnapshot) = false ∧
      wait_for_video_end_or_skip envMuxOnly 4 = (some "duration-fail", true, false) :=
  mux_player_only_duration_fail envMuxOnly 4 muxOnlyPlayer rfl (fun _ => rfl)

/- ===================================================================
   Claims about the Lesson List Stabilizer
   =================================================================== -/

/-- Invariant of the stabilizer loop at entry of round r: at the very
start last_count is -1 with no streak; from round 1 on, last_count is
the count of the previous round and a streak of length stable means the
last stable + 1 observed counts were all equal. -/
def stabInv (counts : Nat → Nat) (r : Nat) (last : Int) (stable : Nat) : Prop :=
  (r = 0 ∧ stable = 0 ∧ last = -1) ∨
    (1 ≤ r ∧ stable + 1 ≤ r ∧ last = (counts (r - 1) : Int) ∧
      ∀ k, r - 1 - stable ≤ k → k < r → counts k = counts (r - 1))

/-- Exiting the stabilizer loop through the debounce break implies the
last 11 observed counts (10 consecutive equalities) were all equal to
the final count. -/
theorem stabLoop_broke_stable (counts : Nat → Nat) :
    ∀ (fuel r : Nat) (last : Int) (stable : Nat),
      stable ≤ 9 → stabInv counts r last stable →
      (stabLoop counts fuel r last stable).broke = true →
      11 ≤ (stabLoop counts fuel r last stable).exitRound ∧
        ∀ k, (stabLoop counts fuel r last stable).exitRound - 11 ≤ k →
          k < (stabLoop counts fuel r last stable).exitRound →
          counts k = counts ((stabLoop counts fuel r last stable).exitRound - 1) := by
  intro fuel
  induction fuel with
  | zero =>
    intro r last stable _ _ hb
    simp [stabLoop] at hb
  | succ fuel ih =>
    intro r last stable hs hinv hb
    by_cases hc : (counts r : Int) = last
    · by_cases h9 : stable = 9
      · subst h9
        have hres : stabLoop counts (fuel + 1) r last 9 = ⟨r + 1, 10, true⟩ := by
          simp [stabLoop, hc]
        rw [hres]
        dsimp only
        rcases hinv with ⟨_, h90, _⟩ | ⟨h1, h2, h3, h4⟩
        · omega
        · have hcnt : counts r = counts (r - 1) := by
            have := hc.trans h3
            exact_mod_cast this
          refine ⟨by omega, ?_⟩
          intro k hk1 hk2
          have hr1 : r + 1 - 1 = r := by omega
          rw [hr1]
          by_cases hkr : k = r
          · rw [hkr]
          · have hk3 : k < r := by omega
            have hblock := h4 k (by omega) hk3
            rw [hblock, hcnt]
      · have h10 : ¬ 10 ≤ stable + 1 := by omega
        have hres : stabLoop counts (fuel + 1) r last stable =
            stabLoop counts fuel (r + 1) (counts r : Int) (stable + 1) := by
          simp [stabLoop, hc, h10]
        rw [hres] at hb ⊢
        have hnew : stabInv counts (r + 1) (counts r : Int) (stable + 1) := by
          rcases hinv with ⟨h0, hst, hlast⟩ | ⟨h1, h2, h3, h4⟩
          · exfalso
            rw [hlast] at hc
            omega
          · have hcnt : counts r = counts (r - 1) := by
              have := hc.trans h3
              exact_mod_cast this
            refine Or.inr ⟨by omega, by omega, ?_, ?_⟩
            · have hr1 : r + 1 - 1 = r := by omega
              rw [hr1]
            · intro k hk1 hk2
              have hr1 : r + 1 - 1 = r := by omega
              rw [hr1]
              by_cases hkr : k = r
              · rw [hkr]
              · have hk3 : k < r := by omega
                have hblock := h4 k (by omega) hk3
                rw [hblock, hcnt]
        exact ih (r + 1) (counts r : Int) (stable + 1) (by omega) hnew hb
    · have hres : stabLoop counts (fuel + 1) r last stable =
          stabLoop counts fuel (r + 1) (counts r : Int) 0 := by
        simp [stabLoop, hc]
      rw [hres] at hb ⊢
      have hnew : stabInv counts (r + 1) (counts r : Int) 0 := by
        refine Or.inr ⟨by omega, by omega, ?_, ?_⟩
        · have hr1 : r + 1 - 1 = r := by omega
          rw [hr1]
        · intro k hk1 hk2
          have hr1 : r + 1 - 1 = r := by omega
          rw [hr1]
          have hkr : k = r := by omega
          rw [hkr]
      exact ih (r + 1) (counts r : Int) 0 (by omega) hnew hb

/-- C2 (amended): every stabilizer run that terminates through the
debounce break (stable streak reaching 10) has observed the final link
count equal on the last 11 rounds (at least 10 consecutive equal
observations) immediately before returning.  Runs that merely exhaust
max_rounds carry no such guarantee. -/
theorem stabilizer_debounce_on_break (counts : Nat → Nat) (max_rounds : Nat)
    (hb : (load_all_lessons_until_stable counts max_rounds).broke = true) :
    11 ≤ (load_all_lessons_until_stable counts max_rounds).exitRound ∧
      ∀ k, (load_all_lessons_until_stable counts max_rounds).exitRound - 11 ≤ k →
        k < (load_all_lessons_until_stable counts max_rounds).exitRound →
        counts k = counts ((load_all_lessons_until_stable counts max_rounds).exitRound - 1) :=
  stabLoop_broke_stable counts max_rounds 0 (-1) 0 (by omega) (Or.inl ⟨rfl, rfl, rfl⟩) hb

/-- Witness for stabilizer_debounce_on_break on the constant count
trace: the run breaks at round 11 and the final count repeats. -/
theorem stabilizer_debounce_on_break_witness :
    (load_all_lessons_until_stable (fun _ => 7) 50).broke = true ∧
      (11 ≤ (load_all_lessons_until_stable (fun _ => 7) 50).exitRound ∧
        ∀ k, (load_all_lessons_until_stable (fun _ => 7) 50).exitRound - 11 ≤ k →
          k < (load_all_lessons_until_stable (fun _ => 7) 50).exitRound →
          (fun _ => 7 : Nat → Nat) k
            = (fun _ => 7 : Nat → Nat)
              ((load_all_lessons_until_stable (fun _ => 7) 50).exitRound - 1)) :=
  ⟨by decide, stabilizer_debounce_on_break (fun _ => 7) 50 (by decide)⟩

/-- C2 counterexample: with a strictly growing link count and
max_rounds = 12 the loop exhausts its rounds and returns without the
debounce break, and the final count was NOT observed equal on 10
consecutive rounds before returning: the claimed property fails on
maxRounds-exhaustion runs. -/
theorem stabilizer_exhaustion_counterexample :
    (load_all_lessons_until_stable (fun r => r) 12).broke = false ∧
      ¬ stableBeforeExit (fun r => r)
          (load_all_lessons_until_stable (fun r => r) 12).exitRound := by
  constructor
  · decide
  · unfold stableBeforeExit
    decide

/- ===================================================================
   Claims about the Section Expander
   =================================================================== -/

/-- After a click round, the events produced by the remaining rounds
always show a downward scroll and no scroll-to-top before the next
click round. -/
theorem expandRounds_gap (ic : Nat → Nat) :
    ∀ (fuel r : Nat), gapDownNoTop true false (expandRounds ic fuel r).1 = true := by
  intro fuel
  induction fuel with
  | zero =>
    intro r
    rfl
  | succ fuel ih =>
    intro r
    by_cases h : ic r = 0
    · simp [expandRounds, h, gapDownNoTop]
    · have hres : (expandRounds ic (fuel + 1) r).1 =
          ScrollEvent.clickRound (ic r) :: ScrollEvent.down 1400
            :: (expandRounds ic fuel (r + 1)).1 := by
        simp [expandRounds, h]
      rw [hres]
      simp only [gapDownNoTop, Bool.not_false, Bool.true_and]
      exact ih (r + 1)

/-- The round loop events satisfy the down-no-top discipline between
consecutive click rounds. -/
theorem expandRounds_between (ic : Nat → Nat) :
    ∀ (fuel r : Nat), downNoTopBetweenRounds (expandRounds ic fuel r).1 = true := by
  intro fuel
  induction fuel with
  | zero =>
    intro r
    rfl
  | succ fuel ih =>
    intro r
    by_cases h : ic r = 0
    · simp [expandRounds, h, downNoTopBetweenRounds]
    · have hres : (expandRounds ic (fuel + 1) r).1 =
          ScrollEvent.clickRound (ic r) :: ScrollEvent.down 1400
            :: (expandRounds ic fuel (r + 1)).1 := by
        simp [expandRounds, h]
      rw [hres]
      simp only [downNoTopBetweenRounds, gapDownNoTop]
      exact expandRounds_gap ic fuel (r + 1)

/-- The round loop emits exactly one downward scroll per click round. -/
theorem expandRounds_down_count (ic : Nat → Nat) :
    ∀ (fuel r : Nat),
      ((expandRounds ic fuel r).1.countP isDownEvent)
        = ((expandRounds ic fuel r).1.countP isClickEvent) := by
  intro fuel
  induction fuel with
  | zero =>
    intro r
    rfl
  | succ fuel ih =>
    intro r
    by_cases h : ic r = 0
    · simp [expandRounds, h]
    · have hres : (expandRounds ic (fuel + 1) r).1 =
          ScrollEvent.clickRound (ic r) :: ScrollEvent.down 1400
            :: (expandRounds ic fuel (r + 1)).1 := by
        simp [expandRounds, h]
      rw [hres]
      have hrec := ih (r + 1)
      simp only [List.countP_cons, isDownEvent, isClickEvent]
      omega

/-- The round loop returns the early flag exactly when some round
within the bound observes zero icons. -/
theorem expandRounds_early_iff (ic : Nat → Nat) :
    ∀ (fuel r : Nat),
      (expandRounds ic fuel r).2 = true ↔ ∃ j, j < fuel ∧ ic (r + j) = 0 := by
  intro fuel
  induction fuel with
  | zero =>
    intro r
    simp [expandRounds]
  | succ fuel ih =>
    intro r
    by_cases h : ic r = 0
    · have hres : expandRounds ic (fuel + 1) r = ([], true) := by
        simp [expandRounds, h]
      rw [hres]
      constructor
      · intro _
        exact ⟨0, by omega, by simpa using h⟩
      · intro _
        rfl
    · have hres : (expandRounds ic (fuel + 1) r).2 = (expandRounds ic fuel (r + 1)).2 := by
        simp [expandRounds, h]
      rw [hres, ih (r + 1)]
      constructor
      · rintro ⟨j, hj, hz⟩
        refine ⟨j + 1, by omega, ?_⟩
        have he : r + (j + 1) = r + 1 + j := by omega
        rw [he]
        exact hz
      · rintro ⟨j, hj, hz⟩
        cases j with
        | zero =>
          exfalso
          apply h
          simpa using hz
        | succ j =>
          refine ⟨j, by omega, ?_⟩
          have he : r + 1 + j = r + (j + 1) := by omega
          rw [he]
          exact hz

/-- C9 (amended): in every run of the Section Expander, between any two
consecutive click rounds the view is scrolled toward the end of the
list and NOT back to the top (the single scroll back to the top happens
after the final round); every click round is paired with exactly one
downward scroll; and the expander stops early exactly when some round
within the bound discovers zero toggle controls. -/
theorem expander_scroll_discipline (ic : Nat → Nat) (rounds : Nat) :
    downNoTopBetweenRounds (expand_all_sections_safe ic rounds).1 = true ∧
      (expand_all_sections_safe ic rounds).1.countP isDownEvent
        = (expand_all_sections_safe ic rounds).1.countP isClickEvent ∧
      ((expand_all_sections_safe ic rounds).2 = true ↔ ∃ j, j < rounds ∧ ic j = 0) := by
  refine ⟨?_, ?_, ?_⟩
  · show downNoTopBetweenRounds
      (ScrollEvent.sidebarIntoView :: ScrollEvent.toTop :: (expandRounds ic rounds 0).1) = true
    simp only [downNoTopBetweenRounds]
    exact expandRounds_between ic rounds 0
  · show (ScrollEvent.sidebarIntoView :: ScrollEvent.toTop
        :: (expandRounds ic rounds 0).1).countP isDownEvent
      = (ScrollEvent.sidebarIntoView :: ScrollEvent.toTop
        :: (expandRounds ic rounds 0).1).countP isClickEvent
    have := expandRounds_down_count ic rounds 0
    simp only [List.countP_cons, isDownEvent, isClickEvent]
    omega
  · show (expandRounds ic rounds 0).2 = true ↔ ∃ j, j < rounds ∧ ic j = 0
    rw [expandRounds_early_iff ic rounds 0]
    simp

/-- C9 counterexample: a two-round run that finds five toggle icons in
each round produces, between its two click rounds, a downward scroll
but no scroll back to the top: the claimed scroll-to-top before the
next round does not happen. -/
theorem expander_no_top_between_rounds_counterexample :
    ScrollEvent.clickRound 5 ∈ (expand_all_sections_safe (fun _ => 5) 2).1 ∧
      downThenTopBetweenRounds (expand_all_sections_safe (fun _ => 5) 2).1 = false := by
  decide
